import Mathlib

/-!
# Verification of `Mouse.js` (`src/mouse.js`)

A shallow embedding of the `Mouse` constructor from `src/mouse.js` and proofs
about the claims of the specification.

Modelling conventions:
* JavaScript numbers that carry pixel coordinates are modelled as rationals
  (`ℚ`); button codes are natural numbers.
* Callbacks are opaque identities (`Cb := Nat`); a dispatch is recorded in a
  `fired` log of `(event name, payload)` pairs.  The reentrant interaction of
  `emit` with `off`/`on` (live-array `Array.prototype.map` semantics) is
  modelled separately by a small heap machine (`DState`, `emitLoop`).
* JavaScript exceptions (e.g. calling `.map` on `undefined`, calling
  `undefined` as a function, calling `.toLowerCase()` on a number) are
  modelled with `Except JsError`.
* The `this.events` object literal is an association list from event-name
  strings to callback lists; the JavaScript `event in self.events` test is
  `List.lookup` succeeding.
-/

namespace MouseJs

/-- A JavaScript runtime exception (the only kind this code can raise). -/
inductive JsError
  | typeError
deriving DecidableEq, Repr

/-- Callback identity: callbacks are compared with `===` in `off`, so only
their identity matters. -/
abbrev Cb := Nat

/-- The fields of a DOM mouse event that `mouse.js` reads. -/
structure MouseEvent where
  button : Nat
  pageX : ℚ
  pageY : ℚ
  movementX : ℚ
  movementY : ℚ
  clientX : ℚ
  clientY : ℚ
deriving DecidableEq, Repr

/-- The payload handed to listeners by `emit`: a mouse event object, a
boolean (for `lockchange`), or `undefined` when `emit` is called with one
argument. -/
inductive EmitPayload
  | ev (e : MouseEvent)
  | bool (b : Bool)
  | undef
deriving DecidableEq, Repr

/-- `buttonCodes` object literal from the constructor, in source order. -/
def buttonCodes : List (String × Nat) :=
  [("left", 0), ("middle", 1), ("right", 2), ("back", 3), ("next", 4)]

/-- `nameOf(code)`: `Object.keys(buttonCodes).find(k => buttonCodes[k] === code)` —
the first key (in insertion order) whose value is `code`, else `undefined`. -/
def nameOf (code : Nat) : Option String :=
  (buttonCodes.find? (fun p => p.2 == code)).map (fun p => p.1)

/-- ASCII case folding of a character, as `String.prototype.toLowerCase`
acts on the characters appearing in button names. -/
def lowerChar (c : Char) : Char :=
  if 'A' ≤ c ∧ c ≤ 'Z' then Char.ofNat (c.toNat + 32) else c

/-- `name.toLowerCase()` (restricted to ASCII case folding, which is all the
button-name lookup can distinguish). -/
def toLowerStr (s : String) : String :=
  ⟨s.data.map lowerChar⟩

/-- `codeOf(name)` on a string argument: `buttonCodes[name.toLowerCase()]`,
`undefined` when the lowered name is not a key. -/
def codeOf (name : String) : Option Nat :=
  buttonCodes.lookup (toLowerStr name)

/-- The `this.events` object literal: the fixed 17 event keys, each with an
empty listener array, in source order. -/
def initEvents : List (String × List Cb) :=
  [("move", []), ("anydown", []), ("anyup", []), ("unlock", []), ("lock", []),
   ("lockchange", []), ("lockerror", []), ("leftdown", []), ("leftup", []),
   ("rightdown", []), ("rightup", []), ("middledown", []), ("middleup", []),
   ("backdown", []), ("backup", []), ("nextdown", []), ("nextup", [])]

/-- The fixed recognized event names (the keys of `this.events`). -/
def eventNames : List String :=
  initEvents.map Prod.fst

/-- `self.events[event] = l` — overwrite the value stored under an existing
key (no key is ever added or removed by the source). -/
def setEvent (evs : List (String × List Cb)) (event : String) (l : List Cb) :
    List (String × List Cb) :=
  evs.map fun p => if p.1 = event then (p.1, l) else p

/-- The mutable state of one `Mouse` instance: the listener table, the
pressed-button set and the coordinate fields initialized by the constructor,
plus a log of the events emitted (each entry is one `emit` call that reached
its listener array). -/
structure MouseState where
  events : List (String × List Cb)
  buttons : Finset Nat
  docX : ℚ
  docY : ℚ
  docPX : ℚ
  docPY : ℚ
  docDX : ℚ
  docDY : ℚ
  docDPX : ℚ
  docDPY : ℚ
  targetX : ℚ
  targetY : ℚ
  targetPX : ℚ
  targetPY : ℚ
  fired : List (String × EmitPayload)
deriving DecidableEq

/-- The state set up by the `Mouse` constructor: all coordinates zero,
no button pressed, the fixed listener table, nothing emitted yet. -/
def initMouseState : MouseState where
  events := initEvents
  buttons := ∅
  docX := 0
  docY := 0
  docPX := 0
  docPY := 0
  docDX := 0
  docDY := 0
  docDPX := 0
  docDPY := 0
  targetX := 0
  targetY := 0
  targetPX := 0
  targetPY := 0
  fired := []

/-- `on(event, callback)`: append the callback when `event in self.events`,
otherwise warn and return `false`. -/
def «on» (st : MouseState) (event : String) (c : Cb) : MouseState × Bool :=
  match st.events.lookup event with
  | some l => ({ st with events := setEvent st.events event (l ++ [c]) }, true)
  | none => (st, false)

/-- `Array.prototype.indexOf` with `===` comparison: the first index holding
`c`, or `-1`. -/
def jsIndexOf (c : Cb) : List Cb → Int
  | [] => -1
  | x :: xs =>
    if x = c then 0
    else
      let r := jsIndexOf c xs
      if r < 0 then -1 else r + 1

/-- The second argument of `off`: either the sentinel string `"all"` or a
callback reference. -/
inductive CbOrAll
  | all
  | cb (c : Cb)
deriving DecidableEq, Repr

/-- `off(event, callback)` from the source: the `"all"` sentinel replaces the
listener array with a fresh empty one; otherwise `indexOf` finds the callback
and `splice(index, 1)` removes it, with `false` returned (after a warning)
when the event key or the callback is missing. -/
def off (st : MouseState) (event : String) (callback : CbOrAll) :
    MouseState × Bool :=
  match callback with
  | .all =>
    match st.events.lookup event with
    | some _ => ({ st with events := setEvent st.events event [] }, true)
    | none => (st, false)
  | .cb c =>
    match st.events.lookup event with
    | some l =>
      let index := jsIndexOf c l
      if index < 0 then (st, false)
      else ({ st with events := setEvent st.events event (l.eraseIdx index.toNat) }, true)
    | none => (st, false)

/-- `emit(event, params)`: `self.events[event].map(f => f(params))`.  When the
key exists the dispatch is recorded in the log; when it does not,
`self.events[event]` is `undefined` and the `.map` call throws a `TypeError`. -/
def emit (st : MouseState) (event : String) (p : EmitPayload) :
    Except JsError MouseState :=
  match st.events.lookup event with
  | some _ => .ok { st with fired := st.fired ++ [(event, p)] }
  | none => .error .typeError

/-- The module-level `Screen` accessor pair (`window.innerWidth` /
`window.innerHeight`), passed explicitly. -/
structure ScreenDims where
  width : ℚ
  height : ℚ
deriving DecidableEq, Repr

/-- `docMove(e)`: store pixel and normalized document coordinates and deltas,
then `emit("move", e)`.  On an emit exception the state updates before the
throw are kept. -/
def docMove (scr : ScreenDims) (e : MouseEvent) (st : MouseState) :
    MouseState × Except JsError Unit :=
  let st1 := { st with
    docPX := e.pageX
    docPY := e.pageY
    docX := (e.pageX / scr.width - 1/2) * 2
    docY := (e.pageY / scr.height - 1/2) * 2
    docDPX := e.movementX
    docDPY := e.movementY
    docDX := (e.movementX / scr.width - 1/2) * 2
    docDY := (e.movementY / scr.height - 1/2) * 2 }
  match emit st1 "move" (.ev e) with
  | .ok st2 => (st2, .ok ())
  | .error er => (st1, .error er)

/-- The dimensions the source reads off the bound target element
(`clientWidth` / `clientHeight`), together with the viewport position of the
element's bounding box (`left` / `top`), which the source never reads but the
spec talks about. -/
structure TargetElem where
  clientWidth : ℚ
  clientHeight : ℚ
  left : ℚ
  top : ℚ
deriving DecidableEq, Repr

/-- `targetMove(e)`: store `clientX` / `clientY` and their normalization by
the target's client size, then delegate to `docMove(e)`. -/
def targetMove (t : TargetElem) (scr : ScreenDims) (e : MouseEvent)
    (st : MouseState) : MouseState × Except JsError Unit :=
  let st1 := { st with
    targetPX := e.clientX
    targetPY := e.clientY
    targetX := (e.clientX / t.clientWidth - 1/2) * 2
    targetY := (e.clientY / t.clientHeight - 1/2) * 2 }
  docMove scr e st1

/-- Modelled from the spec (§3, §4.1 move handling), for comparison with
`targetMove`: the normalized target position "relative to a bound target
element's bounding box", i.e. derived from the pointer's offset within the
target's rendered width/height. -/
def targetPosSpec (t : TargetElem) (e : MouseEvent) : ℚ × ℚ :=
  (((e.clientX - t.left) / t.clientWidth - 1/2) * 2,
   ((e.clientY - t.top) / t.clientHeight - 1/2) * 2)

/-- The string interpolation `${nameOf(e.button)}` — `undefined` prints as
`"undefined"`. -/
def nameOfStr (code : Nat) : String :=
  (nameOf code).getD "undefined"

/-- `docDown(e)`: add the button to the set, then
`emit(nameOf(e.button) + "down", e)` and `emit("anydown", e)`.  The set
mutation precedes any exception an emit may throw. -/
def docDown (e : MouseEvent) (st : MouseState) :
    MouseState × Except JsError Unit :=
  let st1 := { st with buttons := insert e.button st.buttons }
  match emit st1 (nameOfStr e.button ++ "down") (.ev e) with
  | .error er => (st1, .error er)
  | .ok st2 =>
    match emit st2 "anydown" (.ev e) with
    | .error er => (st2, .error er)
    | .ok st3 => (st3, .ok ())

/-- `docUp(e)`: remove the button from the set, then
`emit(nameOf(e.button) + "up", e)` and `emit("anyup", e)`. -/
def docUp (e : MouseEvent) (st : MouseState) :
    MouseState × Except JsError Unit :=
  let st1 := { st with buttons := st.buttons.erase e.button }
  match emit st1 (nameOfStr e.button ++ "up") (.ev e) with
  | .error er => (st1, .error er)
  | .ok st2 =>
    match emit st2 "anyup" (.ev e) with
    | .error er => (st2, .error er)
    | .ok st3 => (st3, .ok ())

/-- A DOM value as it occurs in the `===` comparisons of `lockChange`: an
element (identified by reference), `null` (a present accessor with no
captured element), or `undefined` (a missing vendor accessor).  `BEq` via
`DecidableEq` coincides with strict equality `===` on these values. -/
inductive DomVal
  | elem (id : Nat)
  | null
  | undef
deriving DecidableEq, Repr

/-- The three vendor accessors of `document` that `lockChange` reads. -/
structure DocState where
  pointerLockElement : DomVal
  mozPointerLockElement : DomVal
  webkitPointerLockElement : DomVal
deriving DecidableEq, Repr

/-- `lockChange()`: compute the lock boolean by comparing each vendor
accessor with `self.target` (`||` of the three `===` tests), then
`emit("lockchange", state)` and `emit(state ? "lock" : "unlock")`.
No instance field is assigned. -/
def lockChange (doc : DocState) (target : DomVal) (st : MouseState) :
    MouseState × Except JsError Unit :=
  let state := (doc.pointerLockElement == target) ||
    (doc.mozPointerLockElement == target) ||
    (doc.webkitPointerLockElement == target)
  match emit st "lockchange" (.bool state) with
  | .error er => (st, .error er)
  | .ok st1 =>
    match emit st1 (if state then "lock" else "unlock") .undef with
    | .error er => (st1, .error er)
    | .ok st2 => (st2, .ok ())

/-- The vendor-prefixed capture entry points a target element may carry;
`some f` is a function (identified by `f`), `none` is `undefined`. -/
structure RawTarget where
  requestPointerLock : Option Nat
  mozRequestPointerLock : Option Nat
  webkitRequestPointerLock : Option Nat
  exitPointerLock : Option Nat
  mozExitPointerLock : Option Nat
  webkitExitPointerLock : Option Nat
deriving DecidableEq, Repr

/-- The constructor's aliasing
`target.requestLock = target.requestPointerLock || target.mozRequestPointerLock || target.webkitRequestPointerLock`:
JavaScript `||` picks the first non-`undefined` (functions are truthy). -/
def mkRequestLock (t : RawTarget) : Option Nat :=
  t.requestPointerLock <|> t.mozRequestPointerLock <|> t.webkitRequestPointerLock

/-- The constructor's aliasing `target.requestUnlock = target.exitPointerLock || ...`. -/
def mkRequestUnlock (t : RawTarget) : Option Nat :=
  t.exitPointerLock <|> t.mozExitPointerLock <|> t.webkitExitPointerLock

/-- Outcome of `lock()` / `unlock()` when they return normally: either the
aliased platform entry point was invoked, or the no-target warning was
printed. -/
inductive LockResult
  | invoked (capId : Nat)
  | warned
deriving DecidableEq, Repr

/-- `lock()` (exposed as `lockPointer`): `if (self.target) self.target.requestLock(); else console.warn(...)`.
Calling `requestLock` when the aliasing found no capability calls
`undefined` as a function, a `TypeError`. -/
def lock (target : Option RawTarget) : Except JsError LockResult :=
  match target with
  | some t =>
    match mkRequestLock t with
    | some f => .ok (.invoked f)
    | none => .error .typeError
  | none => .ok .warned

/-- `unlock()` (exposed as `unlockPointer`), symmetric to `lock()`. -/
def unlock (target : Option RawTarget) : Except JsError LockResult :=
  match target with
  | some t =>
    match mkRequestUnlock t with
    | some f => .ok (.invoked f)
    | none => .error .typeError
  | none => .ok .warned

/-- A JavaScript value as passed to `codeOf` / `pressed`. -/
inductive JSVal
  | str (s : String)
  | num (q : ℚ)
  | undef
  | null
deriving DecidableEq, Repr

/-- `codeOf` on a dynamically-typed argument: the source unconditionally
evaluates `name.toLowerCase()`, which throws a `TypeError` unless `name` is
a string. -/
def codeOfDyn : JSVal → Except JsError (Option Nat)
  | .str s => .ok (codeOf s)
  | _ => .error .typeError

/-- `pressed(button)` (exposed as `down`): a string argument is resolved
through `buttonCodes` after lowering (possibly to `undefined`); a diagnostic
is logged when the resolved value is `undefined` or `null`; the result is
`self.buttons.has(value)`.  Returns `(result, diagnosticLogged)` — the
function is total, i.e. never throws. -/
def pressedDyn (st : MouseState) (v : JSVal) : Bool × Bool :=
  let b : JSVal :=
    match v with
    | .str s =>
      match codeOf s with
      | some n => .num (n : ℚ)
      | none => .undef
    | x => x
  let diag : Bool := b == JSVal.undef || b == JSVal.null
  let res : Bool :=
    match b with
    | .num q => decide (∃ k ∈ st.buttons, (k : ℚ) = q)
    | _ => false
  (res, diag)

/-- A button notification for replay: direction plus the raw event. -/
inductive BtnDir
  | down
  | up
deriving DecidableEq, Repr

/-- Replay a sequence of button notifications through `docDown` / `docUp`
(keeping the state even when an emit threw, as the set mutation precedes the
throw). -/
def replayBtns : List (BtnDir × MouseEvent) → MouseState → MouseState
  | [], st => st
  | (.down, e) :: rest, st => replayBtns rest (docDown e st).1
  | (.up, e) :: rest, st => replayBtns rest (docUp e st).1

/-- The direction of the last notification mentioning button `c`, if any. -/
def lastDir (c : Nat) : List (BtnDir × MouseEvent) → Option BtnDir
  | [] => none
  | (d, e) :: rest =>
    match lastDir c rest with
    | some d' => some d'
    | none => if e.button = c then some d else none

end MouseJs

/-!
## Reentrant dispatch: live-array `map` semantics

`emit` runs `self.events[event].map(f => f(params))` over the *live* array:
`Array.prototype.map` caches the array reference and its length at the start,
then visits index `k` only while `k` is still a valid index of that same
array object.  `off(event, cb)` splices the array in place; `off(event,
"all")` replaces `self.events[event]` with a *new* array (the traversed one
survives unchanged); `on(event, cb)` pushes onto the current array.  To model
object identity, arrays live in a heap indexed by identifiers.
-/

namespace MouseJs

/-- What a callback does to the listener list of the event being dispatched
when it is invoked. -/
inductive CbAct
  | nop
  | unsub (c : Cb)
  | unsubAll
  | sub (c : Cb)
deriving DecidableEq, Repr

/-- Dispatch-machine state: the array heap and the identifier of the array
currently stored at `self.events[event]`. -/
structure DState where
  heap : List (List Cb)
  evArr : Nat
deriving DecidableEq, Repr

/-- Effect of one callback action, matching `off` / `on` on the dispatching
event: `unsub` splices the first occurrence out of the current array in
place, `unsubAll` rebinds the event to a fresh empty array, `sub` pushes
onto the current array. -/
def applyAct (a : CbAct) (st : DState) : DState :=
  match a with
  | .nop => st
  | .unsub c =>
    { st with heap := st.heap.set st.evArr ((st.heap.getD st.evArr []).erase c) }
  | .unsubAll =>
    { heap := st.heap ++ [[]], evArr := st.heap.length }
  | .sub c =>
    { st with heap := st.heap.set st.evArr ((st.heap.getD st.evArr []) ++ [c]) }

/-- The `map` traversal: `fuel` counts the remaining indices of the cached
length, `k` is the current index, `arrId` the cached array reference.  Index
`k` is visited only if it is still inside the (possibly spliced) array; the
invoked callback's action is applied to the state before the next step. -/
def emitLoop (act : Cb → CbAct) (arrId : Nat) :
    Nat → Nat → DState → List Cb → DState × List Cb
  | 0, _, st, inv => (st, inv)
  | fuel + 1, k, st, inv =>
    match (st.heap.getD arrId [])[k]? with
    | some c => emitLoop act arrId fuel (k + 1) (applyAct (act c) st) (inv ++ [c])
    | none => emitLoop act arrId fuel (k + 1) st inv

/-- One `emit` dispatch over the live listener array: caches the array
reference and length, then traverses.  Returns the final state and the
callbacks invoked, in order. -/
def emitHeap (act : Cb → CbAct) (st : DState) : DState × List Cb :=
  emitLoop act st.evArr (st.heap.getD st.evArr []).length 0 st []

/-- Actions that do not splice the dispatching event's live array. -/
def safeAct : CbAct → Bool
  | .unsub _ => false
  | _ => true

/-! ## Helper lemmas -/

instance {ε α : Type} [DecidableEq ε] [DecidableEq α] : DecidableEq (Except ε α) := fun a b =>
  match a, b with
  | .ok x, .ok y =>
    if h : x = y then .isTrue (congrArg _ h)
    else .isFalse (fun hc => h (Except.ok.inj hc))
  | .error x, .error y =>
    if h : x = y then .isTrue (congrArg _ h)
    else .isFalse (fun hc => h (Except.error.inj hc))
  | .ok _, .error _ => .isFalse (fun hc => Except.noConfusion hc)
  | .error _, .ok _ => .isFalse (fun hc => Except.noConfusion hc)

lemma emit_some {st : MouseState} {ev : String} {l : List Cb}
    (h : st.events.lookup ev = some l) (p : EmitPayload) :
    emit st ev p = .ok { st with fired := st.fired ++ [(ev, p)] } := by
  unfold emit
  rw [h]

lemma emit_none {st : MouseState} {ev : String}
    (h : st.events.lookup ev = none) (p : EmitPayload) :
    emit st ev p = .error .typeError := by
  unfold emit
  rw [h]

lemma emit_eq_ok {st st' : MouseState} {ev : String} {p : EmitPayload}
    (h : emit st ev p = .ok st') :
    st' = { st with fired := st.fired ++ [(ev, p)] } := by
  unfold emit at h
  cases hl : st.events.lookup ev with
  | some l => rw [hl] at h; exact (Except.ok.inj h).symm
  | none => rw [hl] at h; exact absurd h (by simp)

/-- The effect of `docMove`, given that the `move` key is present. -/
lemma docMove_parts (scr : ScreenDims) (e : MouseEvent) (st : MouseState)
    (l : List Cb) (h : st.events.lookup "move" = some l) :
    (docMove scr e st).1.docX = (e.pageX / scr.width - 1/2) * 2 ∧
    (docMove scr e st).1.docY = (e.pageY / scr.height - 1/2) * 2 ∧
    (docMove scr e st).1.docPX = e.pageX ∧
    (docMove scr e st).1.docPY = e.pageY ∧
    (docMove scr e st).2 = .ok () ∧
    (docMove scr e st).1.fired = st.fired ++ [("move", .ev e)] := by
  refine ⟨?_, ?_, ?_, ?_, ?_, ?_⟩ <;>
  · unfold docMove emit
    dsimp only
    rw [h]

/-- The effect of `targetMove`, given that the `move` key is present. -/
lemma targetMove_parts (t : TargetElem) (scr : ScreenDims) (e : MouseEvent)
    (st : MouseState) (l : List Cb) (h : st.events.lookup "move" = some l) :
    (targetMove t scr e st).1.targetX = (e.clientX / t.clientWidth - 1/2) * 2 ∧
    (targetMove t scr e st).1.targetY = (e.clientY / t.clientHeight - 1/2) * 2 ∧
    (targetMove t scr e st).1.targetPX = e.clientX ∧
    (targetMove t scr e st).1.targetPY = e.clientY ∧
    (targetMove t scr e st).1.docX = (e.pageX / scr.width - 1/2) * 2 ∧
    (targetMove t scr e st).1.docY = (e.pageY / scr.height - 1/2) * 2 ∧
    (targetMove t scr e st).1.fired = st.fired ++ [("move", .ev e)] ∧
    (targetMove t scr e st).2 = .ok () := by
  refine ⟨?_, ?_, ?_, ?_, ?_, ?_, ?_, ?_⟩ <;>
  · unfold targetMove docMove emit
    dsimp only
    rw [h]

/-! ## C6 — document-level move normalization -/

/-- C6: on a document-level movement notification the recomputed normalized
position is exactly `normX = (px/W - 0.5)*2`, `normY = (py/H - 0.5)*2` with
no clamping, and the `move` event then fires with the raw payload; on screen
1000×500 pixel (500, 250) yields (0, 0), pixel (1000, 500) yields (1, 1),
and a pixel outside the viewport yields a value outside `[-1, 1]`. -/
theorem c6_docMove_formula (scr : ScreenDims) (e : MouseEvent)
    (st : MouseState) (lmv : List Cb)
    (hmove : st.events.lookup "move" = some lmv) :
    (docMove scr e st).1.docX = (e.pageX / scr.width - 1/2) * 2 ∧
    (docMove scr e st).1.docY = (e.pageY / scr.height - 1/2) * 2 ∧
    (docMove scr e st).1.docPX = e.pageX ∧
    (docMove scr e st).1.docPY = e.pageY ∧
    (docMove scr e st).2 = .ok () ∧
    (docMove scr e st).1.fired = st.fired ++ [("move", .ev e)] ∧
    (docMove ⟨1000, 500⟩ ⟨0, 500, 250, 0, 0, 0, 0⟩ initMouseState).1.docX = 0 ∧
    (docMove ⟨1000, 500⟩ ⟨0, 500, 250, 0, 0, 0, 0⟩ initMouseState).1.docY = 0 ∧
    (docMove ⟨1000, 500⟩ ⟨0, 1000, 500, 0, 0, 0, 0⟩ initMouseState).1.docX = 1 ∧
    (docMove ⟨1000, 500⟩ ⟨0, 1000, 500, 0, 0, 0, 0⟩ initMouseState).1.docY = 1 ∧
    (docMove ⟨1000, 500⟩ ⟨0, 1500, 250, 0, 0, 0, 0⟩ initMouseState).1.docX = 2 := by
  obtain ⟨b1, b2, b3, b4, b5, b6⟩ := docMove_parts scr e st lmv hmove
  refine ⟨b1, b2, b3, b4, b5, b6, ?_, ?_, ?_, ?_, ?_⟩
  · rw [(docMove_parts ⟨1000, 500⟩ ⟨0, 500, 250, 0, 0, 0, 0⟩ initMouseState []
      (by decide)).1]
    norm_num
  · rw [(docMove_parts ⟨1000, 500⟩ ⟨0, 500, 250, 0, 0, 0, 0⟩ initMouseState []
      (by decide)).2.1]
    norm_num
  · rw [(docMove_parts ⟨1000, 500⟩ ⟨0, 1000, 500, 0, 0, 0, 0⟩ initMouseState []
      (by decide)).1]
    norm_num
  · rw [(docMove_parts ⟨1000, 500⟩ ⟨0, 1000, 500, 0, 0, 0, 0⟩ initMouseState []
      (by decide)).2.1]
    norm_num
  · rw [(docMove_parts ⟨1000, 500⟩ ⟨0, 1500, 250, 0, 0, 0, 0⟩ initMouseState []
      (by decide)).1]
    norm_num

/-- Witness for C6 at screen 1000×500 and pixel (500, 250). -/
theorem c6_witness :
    initMouseState.events.lookup "move" = some [] ∧
    (docMove ⟨1000, 500⟩ ⟨0, 500, 250, 0, 0, 0, 0⟩ initMouseState).1.docX = 0 :=
  ⟨by decide,
   (c6_docMove_formula ⟨1000, 500⟩ ⟨0, 500, 250, 0, 0, 0, 0⟩ initMouseState []
     (by decide)).2.2.2.2.2.2.1⟩

/-! ## C1 — unknown button codes -/

/-- C1 counterexample: a button-down with code 7 (no name in the table) adds
the code to the pressed set but the dispatch throws a `TypeError` — the
listener table has no `undefineddown` key, so `self.events["undefineddown"]`
is `undefined` and `.map` on it throws — and neither `undefineddown` nor
`anydown` fires.  Symmetric for button-up. -/
theorem c1_counterexample :
    (docDown ⟨7, 0, 0, 0, 0, 0, 0⟩ initMouseState).2 = .error .typeError ∧
    (docDown ⟨7, 0, 0, 0, 0, 0, 0⟩ initMouseState).1.fired = [] ∧
    (docDown ⟨7, 0, 0, 0, 0, 0, 0⟩ initMouseState).1.buttons = {7} ∧
    (docUp ⟨7, 0, 0, 0, 0, 0, 0⟩ initMouseState).2 = .error .typeError ∧
    (docUp ⟨7, 0, 0, 0, 0, 0, 0⟩ initMouseState).1.fired = [] := by decide

/-- C1 amended: for a button-down (resp. button-up) notification whose raw
button code does not resolve to a known name, the handler adds (resp.
removes) the code in the pressed set and then the dispatch of the event
literally named `undefineddown` (resp. `undefinedup`) throws a `TypeError`
(the listener table has no such key), so no event — in particular not
`anydown`/`anyup` — fires. -/
theorem c1_amended (e : MouseEvent) (st : MouseState)
    (hname : nameOf e.button = none)
    (hdown : st.events.lookup "undefineddown" = none)
    (hup : st.events.lookup "undefinedup" = none) :
    docDown e st = ({ st with buttons := insert e.button st.buttons }, .error .typeError) ∧
    docUp e st = ({ st with buttons := st.buttons.erase e.button }, .error .typeError) := by
  have hstr : nameOfStr e.button = "undefined" := by
    unfold nameOfStr
    rw [hname]
    rfl
  constructor
  · unfold docDown emit
    dsimp only
    rw [hstr, show ("undefined" ++ "down" : String) = "undefineddown" from by decide,
      hdown]
  · unfold docUp emit
    dsimp only
    rw [hstr, show ("undefined" ++ "up" : String) = "undefinedup" from by decide,
      hup]

/-- Witness for C1 (amended) at button code 7 in the freshly constructed
state. -/
theorem c1_witness :
    nameOf 7 = none ∧
    docDown ⟨7, 1, 2, 3, 4, 5, 6⟩ initMouseState =
      ({ initMouseState with buttons := insert 7 initMouseState.buttons },
        .error .typeError) :=
  ⟨by decide,
   (c1_amended ⟨7, 1, 2, 3, 4, 5, 6⟩ initMouseState (by decide) (by decide)
     (by decide)).1⟩

/-! ## C2 — lockChange stores no lock boolean -/

/-- C2 (evaluation at the failing input): on a capture-state-change
notification where the captured element equals the bound target, `lockChange`
fires `lockchange` with `true` and then `lock` with no payload, but assigns
no instance field: the resulting state differs from the initial one only in
the dispatch log — in particular no stored lock boolean becomes `true`.
The complementary case fires `lockchange` with `false` then `unlock`. -/
theorem c2_lockChange_eval :
    lockChange ⟨.elem 1, .undef, .undef⟩ (.elem 1) initMouseState =
      ({ initMouseState with
          fired := [("lockchange", .bool true), ("lock", .undef)] }, .ok ()) ∧
    lockChange ⟨.null, .undef, .undef⟩ (.elem 1) initMouseState =
      ({ initMouseState with
          fired := [("lockchange", .bool false), ("unlock", .undef)] }, .ok ()) := by
  decide

/-! ## C3 — target-relative position uses viewport coordinates -/

/-- C3 counterexample: with a bound target whose bounding box sits at
viewport x-offset 100 with rendered width 200, a pointer at the target's own
top-left corner (`clientX = 100 = left`) yields `targetX = 0`, not the
minimum normalized coordinate `-1` that position-relative-to-the-bounding-box
(`targetPosSpec`) would give. -/
theorem c3_counterexample :
    MouseEvent.clientX ⟨0, 100, 0, 0, 0, 100, 0⟩ = TargetElem.left ⟨200, 100, 100, 0⟩ ∧
    (targetMove ⟨200, 100, 100, 0⟩ ⟨1000, 500⟩ ⟨0, 100, 0, 0, 0, 100, 0⟩
      initMouseState).1.targetX = 0 ∧
    (targetPosSpec ⟨200, 100, 100, 0⟩ ⟨0, 100, 0, 0, 0, 100, 0⟩).1 = -1 ∧
    (0 : ℚ) ≠ -1 := by
  refine ⟨rfl, ?_, ?_, by norm_num⟩
  · rw [(targetMove_parts ⟨200, 100, 100, 0⟩ ⟨1000, 500⟩ ⟨0, 100, 0, 0, 0, 100, 0⟩
      initMouseState [] (by decide)).1]
    norm_num
  · unfold targetPosSpec
    norm_num

/-- C3 amended: on a target-scoped movement notification the recomputed
target position is the pointer's *viewport-relative* client position
normalized by the target's current rendered width/height — so it depends on
where the target sits in the viewport — after which the document-level move
handling is delegated to (document fields recomputed and `move` fired with
the raw payload). -/
theorem c3_amended (t : TargetElem) (scr : ScreenDims) (e : MouseEvent)
    (st : MouseState) (lmv : List Cb)
    (hmove : st.events.lookup "move" = some lmv) :
    (targetMove t scr e st).1.targetX = (e.clientX / t.clientWidth - 1/2) * 2 ∧
    (targetMove t scr e st).1.targetY = (e.clientY / t.clientHeight - 1/2) * 2 ∧
    (targetMove t scr e st).1.targetPX = e.clientX ∧
    (targetMove t scr e st).1.targetPY = e.clientY ∧
    (targetMove t scr e st).1.docX = (e.pageX / scr.width - 1/2) * 2 ∧
    (targetMove t scr e st).1.docY = (e.pageY / scr.height - 1/2) * 2 ∧
    (targetMove t scr e st).1.fired = st.fired ++ [("move", .ev e)] ∧
    (targetMove t scr e st).2 = .ok () :=
  targetMove_parts t scr e st lmv hmove

/-- Witness for C3 (amended) at a concrete target, screen, event and the
freshly constructed state. -/
theorem c3_witness :
    initMouseState.events.lookup "move" = some [] ∧
    (targetMove ⟨200, 100, 100, 0⟩ ⟨1000, 500⟩ ⟨0, 100, 0, 0, 0, 100, 0⟩
      initMouseState).1.targetPX = 100 :=
  ⟨by decide,
   (c3_amended ⟨200, 100, 100, 0⟩ ⟨1000, 500⟩ ⟨0, 100, 0, 0, 0, 100, 0⟩
     initMouseState [] (by decide)).2.2.1⟩

/-! ## C5 — requestLock / requestUnlock -/

/-- C5 counterexample: with a bound target none of whose vendor-prefixed
lock/unlock capabilities existed at construction, the aliased entry point is
`undefined` and calling it throws a `TypeError` — not a silent no-op. -/
theorem c5_counterexample :
    lock (some ⟨none, none, none, none, none, none⟩) = .error .typeError ∧
    unlock (some ⟨none, none, none, none, none, none⟩) = .error .typeError := by
  decide

/-- C5 amended: with no bound target, `lock()`/`unlock()` warn and no-op
without throwing; with a bound target they invoke the entry point aliased at
construction (the first available vendor capability); if none existed, the
alias is `undefined` and the call throws a `TypeError`. -/
theorem c5_amended :
    lock none = .ok .warned ∧
    unlock none = .ok .warned ∧
    (∀ t : RawTarget, ∀ f : Nat, mkRequestLock t = some f →
      lock (some t) = .ok (.invoked f)) ∧
    (∀ t : RawTarget, mkRequestLock t = none →
      lock (some t) = .error .typeError) ∧
    (∀ t : RawTarget, ∀ f : Nat, mkRequestUnlock t = some f →
      unlock (some t) = .ok (.invoked f)) ∧
    (∀ t : RawTarget, mkRequestUnlock t = none →
      unlock (some t) = .error .typeError) := by
  refine ⟨rfl, rfl, ?_, ?_, ?_, ?_⟩
  · intro t f h
    unfold lock
    dsimp only
    rw [h]
  · intro t h
    unfold lock
    dsimp only
    rw [h]
  · intro t f h
    unfold unlock
    dsimp only
    rw [h]
  · intro t h
    unfold unlock
    dsimp only
    rw [h]

/-- Witness for C5 (amended): a target carrying only the webkit-prefixed
capabilities gets them invoked. -/
theorem c5_witness :
    mkRequestLock ⟨none, none, some 4, none, none, none⟩ = some 4 ∧
    lock (some ⟨none, none, some 4, none, none, none⟩) = .ok (.invoked 4) :=
  ⟨by decide, c5_amended.2.2.1 ⟨none, none, some 4, none, none, none⟩ 4 (by decide)⟩

/-! ## C9 — button table round trips -/

/-- C9: `codeOf (nameOf c) = c` for every code `c < 5`, and for every input
string whose lowering is a valid button name, `codeOf` resolves it
(case-insensitively) and `nameOf` maps the code back to the canonical
(lowercase) name — in particular `nameOf (codeOf n) = n` for each of the
five canonical names `n`. -/
theorem c9_roundtrips :
    (∀ c : Nat, c < 5 → ∃ n, nameOf c = some n ∧ codeOf n = some c) ∧
    (∀ s : String, toLowerStr s ∈ ["left", "middle", "right", "back", "next"] →
      ∃ c, codeOf s = some c ∧ nameOf c = some (toLowerStr s)) := by
  constructor
  · intro c hc
    interval_cases c
    · exact ⟨"left", by decide, by decide⟩
    · exact ⟨"middle", by decide, by decide⟩
    · exact ⟨"right", by decide, by decide⟩
    · exact ⟨"back", by decide, by decide⟩
    · exact ⟨"next", by decide, by decide⟩
  · intro s hs
    unfold codeOf
    rcases (by simpa using hs :
        toLowerStr s = "left" ∨ toLowerStr s = "middle" ∨ toLowerStr s = "right" ∨
        toLowerStr s = "back" ∨ toLowerStr s = "next") with h | h | h | h | h <;>
      rw [h]
    · exact ⟨0, by decide, by decide⟩
    · exact ⟨1, by decide, by decide⟩
    · exact ⟨2, by decide, by decide⟩
    · exact ⟨3, by decide, by decide⟩
    · exact ⟨4, by decide, by decide⟩

/-- Witness for C9: code 2 round-trips, and the mixed-case input `"LeFt"`
resolves to code 0 whose name is the canonical lowering. -/
theorem c9_witness :
    (∃ n, nameOf 2 = some n ∧ codeOf n = some 2) ∧
    (∃ c, codeOf "LeFt" = some c ∧ nameOf c = some (toLowerStr "LeFt")) :=
  ⟨c9_roundtrips.1 2 (by decide), c9_roundtrips.2 "LeFt" (by decide)⟩

/-! ## C10 — codeOf on non-strings, pressed is total -/

/-- C10: `codeOf` is exception-free exactly on string arguments — any
non-string argument (e.g. the number 0) makes the unconditional
`.toLowerCase()` call throw a `TypeError` instead of returning `undefined` —
while `pressed` is total on strings and numbers: an unrecognized string
resolves to `undefined`, logs a diagnostic and returns `false`; a number not
in the pressed set returns `false` with no diagnostic. -/
theorem c10_codeOf_vs_pressed :
    codeOfDyn (.num 0) = .error .typeError ∧
    (∀ v : JSVal, (∀ s, v ≠ .str s) → codeOfDyn v = .error .typeError) ∧
    (∀ s, codeOfDyn (.str s) = .ok (codeOf s)) ∧
    (∀ st : MouseState, ∀ s, codeOf s = none →
      pressedDyn st (.str s) = (false, true)) ∧
    (∀ st : MouseState, ∀ q : ℚ, (∀ k ∈ st.buttons, (k : ℚ) ≠ q) →
      pressedDyn st (.num q) = (false, false)) := by
  refine ⟨rfl, ?_, fun s => rfl, ?_, ?_⟩
  · intro v hv
    cases v with
    | str s => exact absurd rfl (hv s)
    | num q => rfl
    | undef => rfl
    | null => rfl
  · intro st s h
    simp [pressedDyn, h]
  · intro st q h
    have hne : ¬ ∃ k ∈ st.buttons, (k : ℚ) = q := by
      push_neg
      exact h
    simp [pressedDyn, hne]

/-- Witness for C10: `undefined` input throws, the unknown name `"foo"`
returns `false` with a diagnostic, the unpressed code 3 returns `false`
silently. -/
theorem c10_witness :
    codeOfDyn JSVal.undef = .error .typeError ∧
    pressedDyn initMouseState (.str "foo") = (false, true) ∧
    pressedDyn initMouseState (.num 3) = (false, false) :=
  ⟨c10_codeOf_vs_pressed.2.1 JSVal.undef (fun _ h => JSVal.noConfusion h),
   c10_codeOf_vs_pressed.2.2.2.1 initMouseState "foo" (by decide),
   c10_codeOf_vs_pressed.2.2.2.2 initMouseState 3 (by simp [initMouseState])⟩

/-! ## C8 — the off contract -/

/-- `indexOf` is negative exactly when the callback is absent. -/
lemma jsIndexOf_neg_iff (c : Cb) : ∀ l : List Cb, jsIndexOf c l < 0 ↔ c ∉ l := by
  intro l
  induction l with
  | nil => simp [jsIndexOf]
  | cons x xs ih =>
    rw [jsIndexOf]
    by_cases hx : x = c
    · subst hx
      rw [if_pos rfl]
      simp
    · rw [if_neg hx]
      dsimp only
      by_cases hr : jsIndexOf c xs < 0
      · rw [if_pos hr]
        simp only [List.mem_cons]
        constructor
        · intro _ h
          rcases h with h | h
          · exact hx h.symm
          · exact (ih.mp hr) h
        · intro _
          decide
      · rw [if_neg hr]
        have hcx : c ∈ xs := by
          by_contra hc
          exact hr (ih.mpr hc)
        simp only [List.mem_cons]
        constructor
        · intro hlt
          omega
        · intro h
          exact absurd (Or.inr hcx) h

/-- When `indexOf` finds the callback, `splice(index, 1)` removes exactly
the first occurrence. -/
lemma jsIndexOf_eraseIdx (c : Cb) : ∀ l : List Cb, ¬ jsIndexOf c l < 0 →
    l.eraseIdx (jsIndexOf c l).toNat = l.erase c := by
  intro l
  induction l with
  | nil =>
    intro h
    exact absurd (show jsIndexOf c [] < 0 from by rw [jsIndexOf]; decide) h
  | cons x xs ih =>
    intro h
    by_cases hx : x = c
    · subst hx
      rw [jsIndexOf, if_pos rfl]
      rw [show ((0 : Int)).toNat = 0 from rfl, List.eraseIdx_cons_zero,
        List.erase_cons_head]
    · rw [jsIndexOf, if_neg hx] at h ⊢
      dsimp only at h ⊢
      by_cases hr : jsIndexOf c xs < 0
      · rw [if_pos hr] at h
        exact absurd (by decide : (-1 : Int) < 0) h
      · rw [if_neg hr] at h ⊢
        have hpos : 0 ≤ jsIndexOf c xs := by omega
        have h1 : (jsIndexOf c xs + 1).toNat = (jsIndexOf c xs).toNat + 1 := by
          omega
        rw [h1, List.eraseIdx_cons_succ,
          List.erase_cons_tail (by simpa using fun hcx : x = c => hx hcx),
          ih hr]

/-- `lookup` succeeds exactly on the keys. -/
lemma lookup_isSome_iff_mem_keys :
    ∀ (l : List (String × List Cb)) (e : String),
      (l.lookup e).isSome ↔ e ∈ l.map Prod.fst := by
  intro l e
  induction l with
  | nil => simp [List.lookup]
  | cons p rest ih =>
    obtain ⟨k, v⟩ := p
    rw [List.lookup_cons, List.map_cons, List.mem_cons]
    by_cases hk : e = k
    · subst hk
      simp
    · have hbe : (e == k) = false := by simpa using hk
      rw [hbe]
      dsimp only
      rw [ih]
      simp [hk]

/-- C8: `off` never throws and returns a boolean.  With the `"all"` sentinel
it clears the event's whole list, succeeding exactly when the event name is
recognized (a key of the listener table); otherwise it removes exactly the
first occurrence of the callback and succeeds, or fails leaving every list
unchanged when the event name is unrecognized or the callback is absent.
On the constructed instance the recognized names are exactly `eventNames`. -/
theorem c8_off_contract (st : MouseState) (event : String) (c : Cb) :
    (off st event (.cb c) =
      match st.events.lookup event with
      | none => (st, false)
      | some l =>
        if c ∈ l then
          ({ st with events := setEvent st.events event (l.erase c) }, true)
        else (st, false)) ∧
    (off st event .all =
      match st.events.lookup event with
      | none => (st, false)
      | some _ => ({ st with events := setEvent st.events event [] }, true)) ∧
    ((initMouseState.events.lookup event).isSome ↔ event ∈ eventNames) := by
  refine ⟨?_, ?_, lookup_isSome_iff_mem_keys initEvents event⟩
  · unfold off
    cases hl : st.events.lookup event with
    | none => rfl
    | some l =>
      dsimp only
      by_cases hc : c ∈ l
      · rw [if_pos hc]
        have hneg : ¬ jsIndexOf c l < 0 := by
          rw [jsIndexOf_neg_iff]
          simpa using hc
        rw [if_neg hneg, jsIndexOf_eraseIdx c l hneg]
      · rw [if_neg hc]
        have hpos : jsIndexOf c l < 0 := (jsIndexOf_neg_iff c l).mpr hc
        rw [if_pos hpos]
  · unfold off
    cases hl : st.events.lookup event with
    | none => rfl
    | some l => rfl

/-! ## C7 — pressedButtons replay invariant -/

/-- `docDown` always inserts the button code, whether or not the dispatch
then throws (the `Set.add` precedes both `emit` calls). -/
lemma docDown_fst_buttons (e : MouseEvent) (st : MouseState) :
    (docDown e st).1.buttons = insert e.button st.buttons := by
  unfold docDown
  dsimp only
  split
  next er heq =>
    rfl
  next st2 heq =>
    split
    next er2 heq2 =>
      rw [emit_eq_ok heq]
    next st3 heq2 =>
      rw [emit_eq_ok heq2, emit_eq_ok heq]

/-- `docUp` always erases the button code, whether or not the dispatch then
throws. -/
lemma docUp_fst_buttons (e : MouseEvent) (st : MouseState) :
    (docUp e st).1.buttons = st.buttons.erase e.button := by
  unfold docUp
  dsimp only
  split
  next er heq =>
    rfl
  next st2 heq =>
    split
    next er2 heq2 =>
      rw [emit_eq_ok heq]
    next st3 heq2 =>
      rw [emit_eq_ok heq2, emit_eq_ok heq]

/-- Replaying from an arbitrary state: a code is in the final pressed set
iff its last notification was a down, or it was never mentioned and was in
the starting set. -/
lemma replayBtns_mem (c : Nat) :
    ∀ (notes : List (BtnDir × MouseEvent)) (st : MouseState),
      c ∈ (replayBtns notes st).buttons ↔
        (lastDir c notes = some .down ∨
          (lastDir c notes = none ∧ c ∈ st.buttons)) := by
  intro notes
  induction notes with
  | nil =>
    intro st
    simp [replayBtns, lastDir]
  | cons n rest ih =>
    intro st
    obtain ⟨d, e⟩ := n
    cases d with
    | down =>
      rw [show replayBtns ((BtnDir.down, e) :: rest) st =
        replayBtns rest (docDown e st).1 from rfl, ih, docDown_fst_buttons]
      cases hl : lastDir c rest with
      | some d' =>
        simp [lastDir, hl]
      | none =>
        by_cases hbc : e.button = c
        · subst hbc
          simp [lastDir, hl, Finset.mem_insert]
        · simp only [lastDir, hl, Finset.mem_insert, hbc, if_false]
          simp [hbc]
          exact fun h => absurd h.symm hbc
    | up =>
      rw [show replayBtns ((BtnDir.up, e) :: rest) st =
        replayBtns rest (docUp e st).1 from rfl, ih, docUp_fst_buttons]
      cases hl : lastDir c rest with
      | some d' =>
        simp [lastDir, hl]
      | none =>
        by_cases hbc : e.button = c
        · subst hbc
          simp [lastDir, hl, Finset.mem_erase]
        · simp [lastDir, hl, Finset.mem_erase, hbc]
          exact fun _ h => hbc h.symm

/-- C7: replaying any finite sequence of button-down/up notifications from
the freshly constructed (empty) state leaves exactly the codes whose most
recent notification was a down with no intervening up in the pressed set. -/
theorem c7_replay (notes : List (BtnDir × MouseEvent)) (c : Nat) :
    c ∈ (replayBtns notes initMouseState).buttons ↔
      lastDir c notes = some .down := by
  rw [replayBtns_mem]
  simp [initMouseState]

/-! ## C4 — reentrant listener-list mutation during dispatch -/

/-- A non-splicing action keeps the cached array intact as a prefix of the
heap slot, and keeps the slot index valid. -/
lemma applyAct_preserves (orig : List Cb) (arrId : Nat) (a : CbAct)
    (st : DState) (hs : safeAct a = true)
    (ht : (st.heap.getD arrId []).take orig.length = orig)
    (hlt : arrId < st.heap.length) :
    ((applyAct a st).heap.getD arrId []).take orig.length = orig ∧
      arrId < (applyAct a st).heap.length := by
  have hle : orig.length ≤ (st.heap.getD arrId []).length := by
    have h1 := congrArg List.length ht
    rw [List.length_take] at h1
    exact min_eq_left_iff.mp h1
  cases a with
  | nop => exact ⟨ht, hlt⟩
  | unsub c => simp [safeAct] at hs
  | unsubAll =>
    dsimp only [applyAct]
    constructor
    · rw [List.getD_eq_getElem?_getD, List.getElem?_append_left hlt,
        ← List.getD_eq_getElem?_getD]
      exact ht
    · rw [List.length_append]
      omega
  | sub c =>
    dsimp only [applyAct]
    by_cases he : st.evArr = arrId
    · constructor
      · rw [he, List.getD_eq_getElem?_getD, List.getElem?_set_self hlt,
          Option.getD_some, List.take_append_of_le_length hle]
        exact ht
      · rw [List.length_set]
        exact hlt
    · constructor
      · rw [List.getD_eq_getElem?_getD, List.getElem?_set_ne he,
          ← List.getD_eq_getElem?_getD]
        exact ht
      · rw [List.length_set]
        exact hlt

/-- The traversal invariant: while no invoked callback splices the
dispatching array, the loop invokes exactly the remaining snapshot
elements, in order. -/
lemma emitLoop_safe (act : Cb → CbAct) (arrId : Nat) (orig : List Cb)
    (hSafe : ∀ c ∈ orig, safeAct (act c) = true) :
    ∀ (fuel k : Nat) (st : DState) (inv : List Cb),
      fuel + k = orig.length →
      (st.heap.getD arrId []).take orig.length = orig →
      arrId < st.heap.length →
      (emitLoop act arrId fuel k st inv).2 = inv ++ orig.drop k := by
  intro fuel
  induction fuel with
  | zero =>
    intro k st inv hfk ht hlt
    rw [emitLoop, List.drop_eq_nil_of_le (by omega), List.append_nil]
  | succ fuel ih =>
    intro k st inv hfk ht hlt
    have hk : k < orig.length := by omega
    have h1 : orig[k]? = (st.heap.getD arrId [])[k]? := by
      conv_lhs => rw [← ht]
      rw [List.getElem?_take, if_pos hk]
    have hget : (st.heap.getD arrId [])[k]? = some orig[k] := by
      rw [← h1, List.getElem?_eq_getElem hk]
    have hmem : orig[k] ∈ orig := List.getElem_mem hk
    obtain ⟨ht2, hlt2⟩ :=
      applyAct_preserves orig arrId (act orig[k]) st (hSafe _ hmem) ht hlt
    rw [emitLoop]
    rw [hget]
    rw [ih (k + 1) (applyAct (act orig[k]) st) (inv ++ [orig[k]]) (by omega) ht2 hlt2]
    rw [List.append_assoc]
    congr 1
    rw [List.drop_eq_getElem_cons hk, List.singleton_append]

/-- C4 amended: when no callback invoked by an in-flight dispatch removes an
individual listener from the dispatching event's list (mid-dispatch
subscriptions and `"all"`-clears are allowed), every callback registered at
the moment the dispatch started is invoked exactly once, in registration
order — such mutations affect only subsequent dispatches. -/
theorem c4_amended (act : Cb → CbAct) (st : DState)
    (hSafe : ∀ c ∈ st.heap.getD st.evArr [], safeAct (act c) = true) :
    (emitHeap act st).2 = st.heap.getD st.evArr [] := by
  unfold emitHeap
  by_cases h0 : st.heap.getD st.evArr [] = []
  · rw [h0]
    rfl
  · have hlt : st.evArr < st.heap.length := by
      by_contra hge
      push_neg at hge
      refine h0 ?_
      rw [List.getD_eq_getElem?_getD, List.getElem?_eq_none hge]
      rfl
    have h2 := emitLoop_safe act st.evArr (st.heap.getD st.evArr []) hSafe
      (st.heap.getD st.evArr []).length 0 st [] (by omega)
      (List.take_length _) hlt
    rw [h2]
    simp

/-- Witness for C4 (amended): every callback subscribing a fresh listener
mid-dispatch still lets the whole snapshot run. -/
theorem c4_witness :
    (∀ c ∈ (DState.mk [[1, 2]] 0).heap.getD (DState.mk [[1, 2]] 0).evArr [],
      safeAct ((fun _ => CbAct.sub 5) c) = true) ∧
    (emitHeap (fun _ => CbAct.sub 5) (DState.mk [[1, 2]] 0)).2 = [1, 2] :=
  ⟨by decide, c4_amended (fun _ => CbAct.sub 5) (DState.mk [[1, 2]] 0) (by decide)⟩

/-- C4 counterexample: with listener list `[0, 1]` for the dispatching
event, callback `0` unsubscribing itself splices the live array, so the
traversal skips callback `1`: the invoked sequence is `[0]`, not the
snapshot `[0, 1]` — mutation by unsubscription does affect the in-flight
traversal. -/
theorem c4_counterexample :
    (DState.mk [[0, 1]] 0).heap.getD 0 [] = [0, 1] ∧
    (emitHeap (fun c => if c = 0 then CbAct.unsub 0 else CbAct.nop)
      (DState.mk [[0, 1]] 0)).2 = [0] ∧
    ([0] : List Cb) ≠ [0, 1] := by decide

end MouseJs

